import Mathlib

/-!
Verification model of the MazeRunner bot core (`maze_core.py`).

The Python code is shallowly embedded: images are rectangular lists of
pixel rows, machine floats are modelled as rationals, dictionaries as
association lists, and the OpenCV primitives the code calls
(`cv2.matchTemplate` with `TM_CCOEFF_NORMED`, `cv2.minMaxLoc`,
`cv2.cvtColor`) are modelled by a record of abstract functions plus a
faithful embedding of `minMaxLoc`'s row-major first-maximum scan, since
those primitives are third-party library calls, not code of this
repository.  Wall-clock time is modelled by explicit rational
timestamps, one sample per loop iteration.  Logging, mouse movement and
sleeping have no effect on the decision logic and are modelled only
where the claims mention the emitted clicks.
-/

namespace MazeRunner

/-- A single-channel 8-bit image (`GRAY`), as rows of intensity values. -/
abbrev GrayImg := List (List ℕ)

/-- A three-channel 8-bit pixel (`BGR`). -/
abbrev Pixel := ℕ × ℕ × ℕ

/-- A three-channel image, as rows of pixels. -/
abbrev ColorImg := List (List Pixel)

/-- The result matrix of `cv2.matchTemplate`: one correlation score per
candidate top-left placement, in row-major order. -/
abbrev ScoreMap := List (List ℚ)

/-- The bound window's rectangle, `MazeBot._bbox`. -/
structure BBox where
  left : ℤ
  top : ℤ
  width : ℕ
  height : ℕ
deriving DecidableEq

/-- Embedding of `clamp01` from `maze_core.py`. -/
def clamp01 (x : ℚ) : ℚ :=
  if x < 0 then 0 else if x > 1 then 1 else x

/-- Python `int(len * x)` for a non-negative float product: truncation
toward zero, which for non-negative arguments is the floor. -/
def mulFloor (len : ℕ) (x : ℚ) : ℕ :=
  (Int.floor ((len : ℚ) * x)).toNat

/-- The pixel offset of one clamped fractional ROI coordinate, as computed
inside `MazeBot._roi_abs`: `int(size * clamp01(frac))`. -/
def fracOff (len : ℕ) (x : ℚ) : ℕ :=
  mulFloor len (clamp01 x)

/-- A region of interest as four window fractions (left, top, right,
bottom), the tuples passed to `MazeBot._match_roi`. -/
structure Roi where
  l : ℚ
  t : ℚ
  r : ℚ
  b : ℚ
deriving DecidableEq

/-- Embedding of `MazeBot._roi_abs`: absolute screen coordinates
(L, T, R, B) of a fractional region. -/
def roi_abs (bb : BBox) (roi : Roi) : ℤ × ℤ × ℤ × ℤ :=
  (bb.left + fracOff bb.width roi.l,
   bb.top + fracOff bb.height roi.t,
   bb.left + fracOff bb.width roi.r,
   bb.top + fracOff bb.height roi.b)

/-- Python list slicing `l[a:b]` for non-negative bounds: clamps to the
list's length and yields the empty list when `b ≤ a`. -/
def pySlice {π : Type} (l : List π) (a b : ℕ) : List π :=
  (l.drop a).take (b - a)

/-- NumPy 2-d slicing `img[r1:r2, c1:c2]` for non-negative bounds. -/
def sliceImg {π : Type} (img : List (List π)) (r1 r2 c1 c2 : ℕ) : List (List π) :=
  (pySlice img r1 r2).map (fun row => pySlice row c1 c2)

/-- The number of pixels of an image; zero exactly when NumPy's `size`
attribute is zero for a rectangular array. -/
def imgSize {π : Type} (img : List (List π)) : ℕ :=
  (img.map List.length).sum

/-- Number of rows, `shape[0]`. -/
def imgH {π : Type} (img : List (List π)) : ℕ := img.length

/-- Number of columns of a rectangular array, `shape[1]`. -/
def imgW {π : Type} (img : List (List π)) : ℕ := (img.headD []).length

/-- A value the external parameter provider may supply under the
`event_priority` key: a comma-separated string, an already-split list of
names (list entries are modelled as the strings Python's `str(x)` yields
for them), or a value of any other type. -/
inductive PriorityVal where
  | str (s : String)
  | list (l : List String)
  | other
deriving DecidableEq

/-- The hard-coded `default_priority` string of
`MazeBot._update_runtime_params`. -/
def default_priority : String :=
  "event_boss,event_risky,event_battle,event_support,event_shop,event_event,event_unknown"

/-- Python `str.split(",")` on the character list: `""` yields `[""]`,
and every comma opens a new (possibly empty) segment. -/
def splitCommaChars : List Char → List (List Char)
  | [] => [[]]
  | c :: rest =>
      let g := splitCommaChars rest
      if c = ',' then [] :: g
      else
        match g with
        | [] => [[c]]
        | h :: t => (c :: h) :: t

/-- Python `s.split(",")`. -/
def pySplitComma (s : String) : List String :=
  (splitCommaChars s.data).map String.mk

/-- The ASCII whitespace Python's `str.strip()` removes (the priority
names in play are ASCII, so the further Unicode space classes never
arise). -/
def isPySpace (c : Char) : Bool :=
  c = ' ' || c = '\t' || c = '\n' || c = '\r' || c = '\x0b' || c = '\x0c'

/-- Python `s.strip()`. -/
def pyStrip (s : String) : String :=
  String.mk (((s.data.dropWhile isPySpace).reverse.dropWhile isPySpace).reverse)

/-- Embedding of `[x.strip() for x in raw.split(",") if x.strip()]` (a
Python string is truthy exactly when non-empty). -/
def splitPriority (s : String) : List String :=
  ((pySplitComma s).map pyStrip).filter (fun t => t ≠ "")

/-- The event-priority list `MazeBot._update_runtime_params` computes from
the provider's `event_priority` entry (`none` = key absent, in which case
`p.get` returns the default string and the string branch runs; a value of
any other type takes the `else` branch, which splits the default string
and strips without filtering). -/
def eventPriorityOf : Option PriorityVal → List String
  | some (.str s) => splitPriority s
  | some (.list l) => (l.map pyStrip).filter (fun t => t ≠ "")
  | some .other => (pySplitComma default_priority).map pyStrip
  | none => splitPriority default_priority

/-- One answer of the zero-argument parameter provider, with `none` for an
absent key (so that `p.get(key, default)` falls back). -/
structure Provider where
  thr_main : Option ℚ
  thr_tag : Option ℚ
  thr_skip_color : Option ℚ
  sleep_base : Option ℚ
  sleep_fast : Option ℚ
  route_left_ratio : Option ℚ
  event_priority : Option PriorityVal
deriving DecidableEq

/-- A provider answer with every key absent (also stands for the
`self._param_provider() or {}` fallback when the provider returns None). -/
def emptyProvider : Provider :=
  { thr_main := none, thr_tag := none, thr_skip_color := none
  , sleep_base := none, sleep_fast := none, route_left_ratio := none
  , event_priority := none }

/-- The Run Parameters snapshot the bot stores on itself. -/
structure Params where
  thr_main : ℚ
  thr_tag : ℚ
  thr_skip_color : ℚ
  sleep_base : ℚ
  sleep_fast : ℚ
  route_left_ratio : ℚ
  event_priority : List String
deriving DecidableEq

/-- Embedding of `MazeBot._update_runtime_params` applied to one provider
answer. -/
def update_runtime_params (p : Provider) : Params :=
  { thr_main := p.thr_main.getD 0.76
  , thr_tag := p.thr_tag.getD 0.77
  , thr_skip_color := p.thr_skip_color.getD 0.64
  , sleep_base := max 0.006 (p.sleep_base.getD 0.03)
  , sleep_fast := max 0.006 (p.sleep_fast.getD 0.02)
  , route_left_ratio := clamp01 (p.route_left_ratio.getD 0.56)
  , event_priority := eventPriorityOf p.event_priority }

/-- The parameter-relevant part of the bot during `MazeBot.loop`: the
stored snapshot, and how many times the provider has been invoked so far
(`__init__` and `start` also invoke it, so the count at loop entry is
arbitrary). -/
structure LoopSt where
  params : Params
  calls : ℕ
deriving DecidableEq

/-- One call of `self._update_runtime_params()`: reads the provider's
current answer (indexed by the invocation count) and stores the fresh
snapshot. -/
def readParams (env : ℕ → Provider) (ls : LoopSt) : LoopSt :=
  { params := update_runtime_params (env ls.calls), calls := ls.calls + 1 }

/-- One pass of the `while not self._stop` body of `MazeBot.loop`: it runs
the current state (modelled abstractly by `run1` on an arbitrary
state-machine component `σ`, since no state's `run` ever calls
`_update_runtime_params`) and sleeps; the parameter snapshot and the
provider invocation count are not touched by the body's code. -/
def loopBody {σ : Type} (run1 : σ → σ) (st : LoopSt × σ) : LoopSt × σ :=
  (st.1, run1 st.2)

/-- The first `n` iterations of the while loop, recording the parameter
snapshot in effect at the top of each iteration. -/
def loopIter {σ : Type} (run1 : σ → σ) : ℕ → LoopSt × σ → List Params × (LoopSt × σ)
  | 0, st => ([], st)
  | n + 1, st =>
      let r := loopIter run1 n (loopBody run1 st)
      (st.1.params :: r.1, r.2)

/-- Embedding of `MazeBot.loop` (with the state machine abstracted to
`σ`): exactly one `_update_runtime_params()` call at entry, then `n`
iterations of the while body.  Returns the snapshot used by each
iteration and the final loop state. -/
def loopModel {σ : Type} (env : ℕ → Provider) (run1 : σ → σ)
    (ls0 : LoopSt) (s0 : σ) (n : ℕ) : List Params × (LoopSt × σ) :=
  loopIter run1 n (readParams env ls0, s0)

/-- Best value of one row of the score matrix together with the column of
its first occurrence (`cv2.minMaxLoc` keeps the first maximum of a
row-major scan, replacing only on a strictly greater value). -/
def rowMax : List ℚ → Option (ℚ × ℕ)
  | [] => none
  | v :: rest =>
      match rowMax rest with
      | none => some (v, 0)
      | some (w, j) => if w > v then some (w, j + 1) else some (v, 0)

/-- Global maximum of the score matrix with the (x = column, y = row)
location of its first occurrence in row-major order, as `cv2.minMaxLoc`
reports it.  `none` only for a matrix with no entries, which a valid
`cv2.matchTemplate` call never produces. -/
def mapMax : List (List ℚ) → Option (ℚ × ℕ × ℕ)
  | [] => none
  | row :: rest =>
      match rowMax row, mapMax rest with
      | none, none => none
      | some (v, j), none => some (v, j, 0)
      | none, some (w, j2, i) => some (w, j2, i + 1)
      | some (v, j), some (w, j2, i) =>
          if w > v then some (w, j2, i + 1) else some (v, j, 0)

/-- Embedding of `MazeBot._match_single` applied to the score matrix
`res = cv2.matchTemplate(scr, tpl, TM_CCOEFF_NORMED)`: report the best
location exactly when `maxv >= thr`. -/
def match_single (res : ScoreMap) (thr : ℚ) : Option (ℚ × ℕ × ℕ) :=
  match mapMax res with
  | none => none
  | some (v, x, y) => if v ≥ thr then some (v, x, y) else none

/-- The OpenCV primitives the matching code calls, modelled as abstract
functions: `mtGray`/`mtColor` are `cv2.matchTemplate` with
`TM_CCOEFF_NORMED` on single-channel and three-channel images, `toGray`
is `cv2.cvtColor(-, COLOR_BGR2GRAY)`. -/
structure CV where
  mtGray : GrayImg → GrayImg → ScoreMap
  mtColor : ColorImg → ColorImg → ScoreMap
  toGray : ColorImg → GrayImg

/-- Embedding of the `MatchResult` dataclass. -/
structure MatchResult where
  key : String
  maxv : ℚ
  tl : ℤ × ℤ
  br : ℤ × ℤ
  center : ℤ × ℤ
deriving DecidableEq

/-- The template caches and runtime parameters of a `MazeBot` instance
that the matching and state code reads. -/
structure Bot where
  bbox : BBox
  tplGray : List (String × GrayImg)
  tplColor : List (String × ColorImg)
  thr_main : ℚ
  thr_tag : ℚ
  thr_skip_color : ℚ
  sleep_base : ℚ
  sleep_fast : ℚ
  route_left_ratio : ℚ
  event_priority : List String

/-- Embedding of `MazeBot._match_gray`. -/
def match_gray (cv : CV) (b : Bot) (screen : ColorImg) (key : String) (thr : ℚ) :
    Option MatchResult :=
  match b.tplGray.lookup key with
  | none => none
  | some tpl =>
      match match_single (cv.mtGray (cv.toGray screen) tpl) thr with
      | none => none
      | some (maxv, x, y) =>
          let h := imgH tpl
          let w := imgW tpl
          let tlAbs : ℤ × ℤ := (b.bbox.left + x, b.bbox.top + y)
          some { key := key, maxv := maxv, tl := tlAbs
               , br := (tlAbs.1 + w, tlAbs.2 + h)
               , center := (tlAbs.1 + (w / 2 : ℕ), tlAbs.2 + (h / 2 : ℕ)) }

/-- Embedding of `MazeBot._match_color`. -/
def match_color (cv : CV) (b : Bot) (screen : ColorImg) (key : String) (thr : ℚ) :
    Option MatchResult :=
  match b.tplColor.lookup key with
  | none => none
  | some tpl =>
      match match_single (cv.mtColor screen tpl) thr with
      | none => none
      | some (maxv, x, y) =>
          let h := imgH tpl
          let w := imgW tpl
          let tlAbs : ℤ × ℤ := (b.bbox.left + x, b.bbox.top + y)
          some { key := key, maxv := maxv, tl := tlAbs
               , br := (tlAbs.1 + w, tlAbs.2 + h)
               , center := (tlAbs.1 + (w / 2 : ℕ), tlAbs.2 + (h / 2 : ℕ)) }

/-- The sub-image `screen[T - top : B - top, L - left : R - left]` that
`MazeBot._match_roi` searches. -/
def roiSub (b : Bot) (screen : ColorImg) (roi : Roi) : ColorImg :=
  let q := roi_abs b.bbox roi
  sliceImg screen (q.2.1 - b.bbox.top).toNat (q.2.2.2 - b.bbox.top).toNat
    (q.1 - b.bbox.left).toNat (q.2.2.1 - b.bbox.left).toNat

/-- Embedding of `MazeBot._match_roi`. -/
def match_roi (cv : CV) (b : Bot) (screen : ColorImg) (key : String) (thr : ℚ)
    (roi : Roi) (use_color : Bool) : Option MatchResult :=
  let q := roi_abs b.bbox roi
  let sub := roiSub b screen roi
  if imgSize sub = 0 then none
  else
    let hit :=
      if use_color then
        match b.tplColor.lookup key with
        | none => none
        | some tpl => (match_single (cv.mtColor sub tpl) thr).map (fun r => (r, imgH tpl, imgW tpl))
      else
        match b.tplGray.lookup key with
        | none => none
        | some tpl => (match_single (cv.mtGray (cv.toGray sub) tpl) thr).map (fun r => (r, imgH tpl, imgW tpl))
    match hit with
    | none => none
    | some ((maxv, x, y), h, w) =>
        let tlAbs : ℤ × ℤ := (q.1 + x, q.2.1 + y)
        some { key := key, maxv := maxv, tl := tlAbs
             , br := (tlAbs.1 + w, tlAbs.2 + h)
             , center := (tlAbs.1 + (w / 2 : ℕ), tlAbs.2 + (h / 2 : ℕ)) }

/-- The state kinds of the machine (the `State_Base` subclasses). -/
inductive SKind where
  | init
  | prepare
  | routeSel
  | routeConfirm
  | battle
  | bossBattle
  | relicSel
  | shop
  | support
deriving DecidableEq

/-- Each kind's `TIMEOUT_SECS` class attribute (`Boss_Battle_State`
inherits `Battle_State`'s 45; `Shop_State` and `Support_State` inherit
`_BaseSkipBottomRight`'s 10). -/
def timeoutSecs : SKind → ℚ
  | .init => 15
  | .prepare => 15
  | .routeSel => 20
  | .routeConfirm => 10
  | .battle => 45
  | .bossBattle => 45
  | .relicSel => 15
  | .shop => 10
  | .support => 10

/-- A state instance: `State_Base.__init__` fields plus
`Route_Confirmation_State`'s carried `battle_cls` (meaningful only for
`routeConfirm`; the Python default is `Battle_State`).  The `after` chain
stores state-kind tags in place of the Python class references. -/
structure StateI where
  kind : SKind
  after : List SKind
  battleCls : SKind
  t0 : ℚ
  last : ℚ
  beat : ℕ
deriving DecidableEq

/-- Constructing a state at time `now`: `_t0 = time.time()`, `_last = 0.0`,
`_beat = 0`; `battle_cls` takes its default. -/
def mkState (k : SKind) (aft : List SKind) (now : ℚ) : StateI :=
  { kind := k, after := aft, battleCls := .battle, t0 := now, last := 0, beat := 0 }

/-- Constructing `Route_Confirmation_State(b, battle_cls=bc)`. -/
def mkRouteConfirm (bc : SKind) (now : ℚ) : StateI :=
  { kind := .routeConfirm, after := [], battleCls := bc, t0 := now, last := 0, beat := 0 }

/-- Embedding of `State_Base.heartbeat` called at time `now`: updates the
once-per-second bookkeeping and returns whether
`(now - self._t0) > self.TIMEOUT_SECS`. -/
def heartbeat (s : StateI) (now : ℚ) : StateI × Bool :=
  let s1 := if now - s.last ≥ 1 then { s with last := now, beat := s.beat + 1 } else s
  (s1, now - s.t0 > timeoutSecs s.kind)

/-- Embedding of `State_Base.next_from_chain`, constructing the successor
at time `now`: pop the chain's head, or fall back to
`Route_Selection_State` when the chain is empty. -/
def next_from_chain (s : StateI) (now : ℚ) : StateI :=
  match s.after with
  | [] => mkState .routeSel [] now
  | c :: rest => mkState c rest now

/-- The runtime `POST_CHAIN` class attribute: `Battle_State.POST_CHAIN`
is `[Route_Selection_State]` and the module's last line assigns
`Boss_Battle_State.POST_CHAIN = [Shop_State, Support_State,
Route_Selection_State]`. -/
def postChain : SKind → List SKind
  | .battle => [.routeSel]
  | .bossBattle => [.shop, .support, .routeSel]
  | _ => []

/-- Embedding of `Route_Selection_State._try_match`: grayscale ROI match
first, color ROI match as fallback, first success wins. -/
def try_match (cv : CV) (b : Bot) (scr : ColorImg) (key : String) (roi : Roi) (thr : ℚ) :
    Option MatchResult :=
  (match_roi cv b scr key thr roi false).orElse
    (fun _ => match_roi cv b scr key thr roi true)

/-- The clamped left ratio `max(0.05, min(0.75, route_left_ratio))`
computed inside `Route_Selection_State._pick` and `run`. -/
def leftRatio (b : Bot) : ℚ :=
  max 0.05 (min 0.75 b.route_left_ratio)

/-- Pass-1 region `roi1 = (0.05, 0.18, left, 0.86)` of `_pick`. -/
def roiPass1 (b : Bot) : Roi :=
  { l := 0.05, t := 0.18, r := leftRatio b, b := 0.86 }

/-- Pass-2 region `roi2 = (0.02, 0.12, min(0.78, left + 0.12), 0.90)`. -/
def roiPass2 (b : Bot) : Roi :=
  { l := 0.02, t := 0.12, r := min 0.78 (leftRatio b + 0.12), b := 0.90 }

/-- One `for name in b.event_priority` pass of `_pick`: the first name
whose `_try_match` hits wins and its center is returned. -/
def pickLoop (cv : CV) (b : Bot) (scr : ColorImg) (roi : Roi) (thr : ℚ) :
    List String → Option ((ℤ × ℤ) × String)
  | [] => none
  | name :: rest =>
      match try_match cv b scr name roi thr with
      | some r => some (r.center, name)
      | none => pickLoop cv b scr roi thr rest

/-- Embedding of `Route_Selection_State._pick`: pass 1 over the standard
region at `thr_main`, then pass 2 over the enlarged region at
`thr_main - 0.02`. -/
def pick (cv : CV) (b : Bot) (scr : ColorImg) : Option ((ℤ × ℤ) × String × Roi) :=
  match pickLoop cv b scr (roiPass1 b) b.thr_main b.event_priority with
  | some (c, name) => some (c, name, roiPass1 b)
  | none =>
      match pickLoop cv b scr (roiPass2 b) (b.thr_main - 0.02) b.event_priority with
      | some (c, name) => some (c, name, roiPass2 b)
      | none => none

/-- One iteration of `Route_Selection_State.run`'s while body at time
`now` on screenshot `scr` (the stop flag is false and the debug branch
only logs): `some s` is a `return s` transition, `none` means the loop
continues; the second component lists the clicks issued. -/
def routeSelStep (cv : CV) (b : Bot) (s : StateI) (now : ℚ) (scr : ColorImg) :
    Option StateI × List (ℤ × ℤ) :=
  if (heartbeat s now).2 then (some (mkState .init [] now), [])
  else
    match match_gray cv b scr "title_route" (max 0.5 (b.thr_tag - 0.15)) with
    | none =>
        if (match_gray cv b scr "btn_battle_skip" b.thr_main).isSome then
          (some (mkState .battle [] now), [])
        else if (match_gray cv b scr "title_relic" b.thr_tag).isSome then
          (some (mkState .relicSel [] now), [])
        else if (match_gray cv b scr "btn_route_confirm" b.thr_main).isSome then
          (some (mkState .routeConfirm [] now), [])
        else (some (mkState .init [] now), [])
    | some _ =>
        match pick cv b scr with
        | some (c, key, _) =>
            (some (mkRouteConfirm (if key = "event_boss" then .bossBattle else .battle) now),
             [c])
        | none => (none, [])

/-- One iteration of `Route_Confirmation_State.run`'s while body: color
match of the confirm button before the grayscale fallback, then the two
short-circuit cues. -/
def routeConfirmStep (cv : CV) (b : Bot) (s : StateI) (now : ℚ) (scr : ColorImg) :
    Option StateI × List (ℤ × ℤ) :=
  if (heartbeat s now).2 then (some (mkState .init [] now), [])
  else
    match (match_color cv b scr "btn_route_confirm" b.thr_main).orElse
        (fun _ => match_gray cv b scr "btn_route_confirm" b.thr_main) with
    | some ok => (some (mkState s.battleCls [] now), [ok.center])
    | none =>
        if (match_gray cv b scr "btn_battle_skip" b.thr_main).isSome then
          (some (mkState s.battleCls [] now), [])
        else if (match_gray cv b scr "title_relic" b.thr_tag).isSome then
          (some (mkState .relicSel [] now), [])
        else (none, [])

/-- `Battle_State.ROI_NEXT`. -/
def roiNext : Roi := { l := 0.72, t := 0.78, r := 0.99, b := 0.99 }

/-- `Battle_State.ROI_SKIP`. -/
def roiSkip : Roi := { l := 0.78, t := 0, r := 0.99, b := 0.22 }

/-- The burst of clicks `Battle_State.run` fires during its initial spam
window: `(int(width * 0.94), int(height * y))` for the three y anchors
(the code passes these window-relative points to `click_abs` as they
are). -/
def spamClicks (b : Bot) : List (ℤ × ℤ) :=
  [((mulFloor b.bbox.width 0.94 : ℕ), (mulFloor b.bbox.height 0.10 : ℕ)),
   ((mulFloor b.bbox.width 0.94 : ℕ), (mulFloor b.bbox.height 0.112 : ℕ)),
   ((mulFloor b.bbox.width 0.94 : ℕ), (mulFloor b.bbox.height 0.113 : ℕ))]

/-- One iteration of `Battle_State.run`'s while body (shared by
`Boss_Battle_State`, which only overrides `POST_CHAIN`): `tEnter` is the
entry timestamp recorded by `run`. -/
def battleStep (cv : CV) (b : Bot) (s : StateI) (tEnter now : ℚ) (scr : ColorImg) :
    Option StateI × List (ℤ × ℤ) :=
  if (heartbeat s now).2 then (some (mkState .init [] now), [])
  else
    match (match_roi cv b scr "btn_next" (b.thr_main - 0.10) roiNext false).orElse
        (fun _ => match_gray cv b scr "btn_next" (b.thr_main - 0.08)) with
    | some nxt => (some (mkState .relicSel (postChain s.kind) now), [nxt.center])
    | none =>
        match (match_roi cv b scr "btn_battle_skip" (max 0.30 (b.thr_skip_color - 0.08)) roiSkip true).orElse
            (fun _ => (match_roi cv b scr "btn_battle_skip" (b.thr_main - 0.12) roiSkip false).orElse
              (fun _ => match_roi cv b scr "btn_skip" (b.thr_main - 0.12) roiSkip true)) with
        | some sk => (none, [sk.center, sk.center])
        | none =>
            if now - tEnter < 2.3 then (none, spamClicks b) else (none, [])

/-- `_BaseSkipBottomRight.ROI_SKIP_BTN`, the bottom-right button region. -/
def roiSkipBtn : Roi := { l := 0.72, t := 0.82, r := 0.98, b := 0.98 }

/-- The geometric center `((L + R) // 2, (T + B) // 2)` of the
bottom-right region (Python floor division). -/
def roiCenterPt (b : Bot) : ℤ × ℤ :=
  let q := roi_abs b.bbox roiSkipBtn
  (Int.fdiv (q.1 + q.2.2.1) 2, Int.fdiv (q.2.1 + q.2.2.2) 2)

/-- The leave/continue cue lookup of `_BaseSkipBottomRight.run`:
`btn_shop_skip` in color at `thr_main`, else `btn_next` in grayscale at
`thr_main - 0.08`, both inside the bottom-right region. -/
def skipMatch (cv : CV) (b : Bot) (scr : ColorImg) : Option MatchResult :=
  (match_roi cv b scr "btn_shop_skip" b.thr_main roiSkipBtn true).orElse
    (fun _ => match_roi cv b scr "btn_next" (b.thr_main - 0.08) roiSkipBtn false)

/-- What `_BaseSkipBottomRight.run` produced on a given iteration trace:
a returned next state, or still running (trace too short to decide). -/
inductive SkipOutcome where
  | next (s : StateI)
  | running
deriving DecidableEq

/-- Embedding of `_BaseSkipBottomRight.run` (the shared `Shop_State` /
`Support_State` body) over a trace of per-iteration (timestamp,
screenshot) samples; `t0` is the local `t0 = time.time()` recorded at
entry and the stop flag is false.  Returns the clicks issued and the
outcome. -/
def skipRun (cv : CV) (b : Bot) (s : StateI) (t0 : ℚ) :
    List (ℚ × ColorImg) → List (ℤ × ℤ) × SkipOutcome
  | [] => ([], .running)
  | (now, scr) :: rest =>
      if now - t0 < timeoutSecs s.kind then
        if (heartbeat s now).2 then ([], .next (mkState .init [] now))
        else
          match skipMatch cv b scr with
          | some r => ([r.center], .next (next_from_chain s now))
          | none =>
              let r := skipRun cv b ((heartbeat s now).1) t0 rest
              (roiCenterPt b :: r.1, r.2)
      else ([], .next (next_from_chain s now))

/-- A provider trace for exercising `loopModel`: `thr_main` is 0.5 at the
provider's first invocation and 0.9 afterwards. -/
def envC1 : ℕ → Provider := fun k =>
  { emptyProvider with thr_main := some (if k = 0 then 0.5 else 0.9) }

/-! ## A concrete world for exercising the definitions

A 4x4 window at the origin, a uniform screenshot, 1x1 templates, and
OpenCV primitives that score each template by name: `event_boss` 0.8,
`event_risky` 0.95, `title_route` and `btn_route_confirm` and `btn_next`
1.0, everything else 0.  Color matching scores 0 everywhere. -/

def bboxW : BBox := { left := 0, top := 0, width := 4, height := 4 }

def scrW : ColorImg := List.replicate 4 (List.replicate 4 ((0, 0, 0) : Pixel))

def tplBoss : GrayImg := [[1]]

def tplRisky : GrayImg := [[2]]

def tplTitle : GrayImg := [[3]]

def tplConfirm : GrayImg := [[4]]

def tplNext : GrayImg := [[5]]

def cvW : CV :=
  { mtGray := fun _ tpl =>
      if tpl = tplBoss then [[0.8]]
      else if tpl = tplRisky then [[0.95]]
      else if tpl = tplTitle then [[1]]
      else if tpl = tplConfirm then [[1]]
      else if tpl = tplNext then [[1]]
      else [[0]]
  , mtColor := fun _ _ => [[0]]
  , toGray := fun img => img.map (fun row => row.map (fun _ => 0)) }

def botW : Bot :=
  { bbox := bboxW
  , tplGray := [("event_boss", tplBoss), ("event_risky", tplRisky),
      ("title_route", tplTitle), ("btn_route_confirm", tplConfirm), ("btn_next", tplNext)]
  , tplColor := [("event_boss", [[(1, 1, 1)]]), ("event_risky", [[(2, 2, 2)]]),
      ("title_route", [[(3, 3, 3)]]), ("btn_route_confirm", [[(4, 4, 4)]]),
      ("btn_next", [[(5, 5, 5)]])]
  , thr_main := 0.76, thr_tag := 0.77, thr_skip_color := 0.64
  , sleep_base := 0.03, sleep_fast := 0.02, route_left_ratio := 0.56
  , event_priority := ["event_boss", "event_risky"] }

/-! ## Helper lemmas -/

theorem loopIter_params {σ : Type} (run1 : σ → σ) :
    ∀ (n : ℕ) (st : LoopSt × σ),
      (loopIter run1 n st).1 = List.replicate n st.1.params ∧
        (loopIter run1 n st).2.1 = st.1 := by
  intro n
  induction n with
  | zero => intro st; exact ⟨rfl, rfl⟩
  | succ n ih =>
      intro st
      have h := ih (loopBody run1 st)
      simp only [loopIter, loopBody] at h ⊢
      exact ⟨by rw [h.1]; rfl, h.2⟩

theorem filter_map_strip_eq_nil (l : List String) :
    ((l.map pyStrip).filter (fun t => t ≠ "") = [] ↔ ∀ x ∈ l, pyStrip x = "") := by
  rw [List.filter_eq_nil_iff]
  constructor
  · intro h x hx
    have := h (pyStrip x) (List.mem_map_of_mem pyStrip hx)
    simpa using this
  · intro h a ha
    rcases List.mem_map.mp ha with ⟨x, hx, rfl⟩
    simpa using h x hx

theorem eventPriorityOf_eq_nil_iff (v : Option PriorityVal) :
    (eventPriorityOf v = [] ↔
      (∃ s, v = some (.str s) ∧ ∀ x ∈ pySplitComma s, pyStrip x = "") ∨
      (∃ l, v = some (.list l) ∧ ∀ x ∈ l, pyStrip x = "")) := by
  cases v with
  | none =>
      simp only [eventPriorityOf]
      constructor
      · intro h; exact absurd h (by decide)
      · rintro (⟨s, hs, -⟩ | ⟨l, hs, -⟩) <;> simp at hs
  | some v =>
      cases v with
      | str s =>
          simp only [eventPriorityOf, splitPriority]
          rw [filter_map_strip_eq_nil]
          constructor
          · intro h; exact Or.inl ⟨s, rfl, h⟩
          · rintro (⟨s2, hs2, h2⟩ | ⟨l, hl, -⟩)
            · obtain rfl : s = s2 := by
                injection hs2 with h3; injection h3
              exact h2
            · simp at hl
      | list l =>
          simp only [eventPriorityOf]
          rw [filter_map_strip_eq_nil]
          constructor
          · intro h; exact Or.inr ⟨l, rfl, h⟩
          · rintro (⟨s2, hs2, -⟩ | ⟨l2, hl2, h2⟩)
            · simp at hs2
            · obtain rfl : l = l2 := by
                injection hl2 with h3; injection h3
              exact h2
      | other =>
          simp only [eventPriorityOf]
          constructor
          · intro h; exact absurd h (by decide)
          · rintro (⟨s, hs, -⟩ | ⟨l, hs, -⟩) <;> simp at hs

theorem rowMax_eq_none_iff (r : List ℚ) : rowMax r = none ↔ r = [] := by
  cases r with
  | nil => simp [rowMax]
  | cons v rest =>
      simp only [rowMax]
      cases h : rowMax rest with
      | none => simp
      | some p =>
          obtain ⟨w, j⟩ := p
          by_cases hw : w > v <;> simp [hw]

theorem rowMax_le (r : List ℚ) (v : ℚ) (j : ℕ) (h : rowMax r = some (v, j)) :
    ∀ a ∈ r, a ≤ v := by
  induction r generalizing v j with
  | nil => simp [rowMax] at h
  | cons v0 rest ih =>
      simp only [rowMax] at h
      cases h2 : rowMax rest with
      | none =>
          simp only [h2] at h
          obtain ⟨rfl, -⟩ : v0 = v ∧ 0 = j := by simpa using h
          have : rest = [] := (rowMax_eq_none_iff rest).mp h2
          subst this
          simp
      | some p =>
          obtain ⟨w, j2⟩ := p
          simp only [h2] at h
          have hrest := ih w j2 h2
          by_cases hw : w > v0
          · rw [if_pos hw] at h
            obtain ⟨rfl, rfl⟩ : w = v ∧ j2 + 1 = j := by simpa using h
            intro a ha
            rcases List.mem_cons.mp ha with rfl | ha2
            · exact le_of_lt hw
            · exact hrest a ha2
          · rw [if_neg hw] at h
            obtain ⟨rfl, rfl⟩ : v0 = v ∧ 0 = j := by simpa using h
            intro a ha
            rcases List.mem_cons.mp ha with rfl | ha2
            · exact le_refl a
            · exact le_trans (hrest a ha2) (not_lt.mp hw)

theorem mapMax_none_rows (m : List (List ℚ)) (h : mapMax m = none) :
    ∀ row ∈ m, row = [] := by
  induction m with
  | nil => simp
  | cons row rest ih =>
      simp only [mapMax] at h
      cases h1 : rowMax row with
      | none =>
          cases h2 : mapMax rest with
          | none =>
              intro r hr
              rcases List.mem_cons.mp hr with rfl | hr2
              · exact (rowMax_eq_none_iff r).mp h1
              · exact ih (by rw [h2]) r hr2
          | some p =>
              rw [h1, h2] at h
              obtain ⟨w, j2, i⟩ := p
              simp at h
      | some p =>
          obtain ⟨v, j⟩ := p
          rw [h1] at h
          cases h2 : mapMax rest with
          | none => rw [h2] at h; simp at h
          | some q =>
              obtain ⟨w, j2, i⟩ := q
              rw [h2] at h
              by_cases hw : w > v <;> simp [hw] at h

theorem mapMax_le (m : List (List ℚ)) (v : ℚ) (x y : ℕ)
    (h : mapMax m = some (v, x, y)) : ∀ row ∈ m, ∀ a ∈ row, a ≤ v := by
  induction m generalizing v x y with
  | nil => simp [mapMax] at h
  | cons row rest ih =>
      simp only [mapMax] at h
      cases h1 : rowMax row with
      | none =>
          have hrow : row = [] := (rowMax_eq_none_iff row).mp h1
          cases h2 : mapMax rest with
          | none => simp [h1, h2] at h
          | some q =>
              obtain ⟨w, j2, i⟩ := q
              simp only [h1, h2] at h
              obtain ⟨hv, -, -⟩ : w = v ∧ j2 = x ∧ i + 1 = y := by simpa using h
              subst hv
              intro r hr
              rcases List.mem_cons.mp hr with rfl | hr2
              · subst hrow; simp
              · exact ih w j2 i h2 r hr2
      | some p =>
          obtain ⟨v1, j⟩ := p
          cases h2 : mapMax rest with
          | none =>
              simp only [h1, h2] at h
              obtain ⟨hv, -, -⟩ : v1 = v ∧ j = x ∧ 0 = y := by simpa using h
              subst hv
              intro r hr
              rcases List.mem_cons.mp hr with rfl | hr2
              · exact rowMax_le r v1 j h1
              · intro a ha
                have hnil := mapMax_none_rows rest h2 r hr2
                subst hnil
                simp at ha
          | some q =>
              obtain ⟨w, j2, i⟩ := q
              simp only [h1, h2] at h
              by_cases hw : w > v1
              · rw [if_pos hw] at h
                obtain ⟨hv, -, -⟩ : w = v ∧ j2 = x ∧ i + 1 = y := by simpa using h
                subst hv
                intro r hr
                rcases List.mem_cons.mp hr with rfl | hr2
                · intro a ha
                  exact le_trans (rowMax_le r v1 j h1 a ha) (le_of_lt hw)
                · exact ih w j2 i h2 r hr2
              · rw [if_neg hw] at h
                obtain ⟨hv, -, -⟩ : v1 = v ∧ j = x ∧ 0 = y := by simpa using h
                subst hv
                intro r hr
                rcases List.mem_cons.mp hr with rfl | hr2
                · exact rowMax_le r v1 j h1
                · intro a ha
                  exact le_trans (ih w j2 i h2 r hr2 a ha) (not_lt.mp hw)

theorem match_single_isSome_iff (res : ScoreMap) (thr : ℚ) :
    ((match_single res thr).isSome = true ↔
      ∃ v p, mapMax res = some (v, p) ∧ thr ≤ v) := by
  unfold match_single
  cases h : mapMax res with
  | none => simp
  | some p =>
      obtain ⟨v, x, y⟩ := p
      by_cases hv : v ≥ thr
      · simp only [if_pos hv]
        simp only [Option.isSome_some, true_iff]
        exact ⟨v, (x, y), rfl, hv⟩
      · simp only [if_neg hv]
        simp only [Option.isSome_none, Bool.false_eq_true, false_iff]
        rintro ⟨v2, p2, hp, hle⟩
        obtain ⟨rfl, -⟩ : v = v2 ∧ (x, y) = p2 := by simpa using hp
        exact hv hle

theorem match_gray_isSome (cv : CV) (b : Bot) (scr : ColorImg) (key : String)
    (thr : ℚ) (tg : GrayImg) (hg : b.tplGray.lookup key = some tg) :
    (match_gray cv b scr key thr).isSome =
      (match_single (cv.mtGray (cv.toGray scr) tg) thr).isSome := by
  unfold match_gray
  rw [hg]
  cases h : match_single (cv.mtGray (cv.toGray scr) tg) thr with
  | none => simp [h]
  | some r => obtain ⟨v, x, y⟩ := r; simp [h]

theorem match_color_isSome (cv : CV) (b : Bot) (scr : ColorImg) (key : String)
    (thr : ℚ) (tc : ColorImg) (hc : b.tplColor.lookup key = some tc) :
    (match_color cv b scr key thr).isSome =
      (match_single (cv.mtColor scr tc) thr).isSome := by
  unfold match_color
  rw [hc]
  cases h : match_single (cv.mtColor scr tc) thr with
  | none => simp [h]
  | some r => obtain ⟨v, x, y⟩ := r; simp [h]

theorem match_roi_isSome_gray (cv : CV) (b : Bot) (scr : ColorImg) (key : String)
    (thr : ℚ) (roi : Roi) (tg : GrayImg) (hg : b.tplGray.lookup key = some tg)
    (hsz : imgSize (roiSub b scr roi) ≠ 0) :
    (match_roi cv b scr key thr roi false).isSome =
      (match_single (cv.mtGray (cv.toGray (roiSub b scr roi)) tg) thr).isSome := by
  unfold match_roi
  simp only [if_neg hsz, Bool.false_eq_true, if_false, hg]
  cases h : match_single (cv.mtGray (cv.toGray (roiSub b scr roi)) tg) thr with
  | none => simp [h]
  | some r => obtain ⟨v, x, y⟩ := r; simp [h]

theorem match_roi_isSome_color (cv : CV) (b : Bot) (scr : ColorImg) (key : String)
    (thr : ℚ) (roi : Roi) (tc : ColorImg) (hc : b.tplColor.lookup key = some tc)
    (hsz : imgSize (roiSub b scr roi) ≠ 0) :
    (match_roi cv b scr key thr roi true).isSome =
      (match_single (cv.mtColor (roiSub b scr roi) tc) thr).isSome := by
  unfold match_roi
  simp only [if_neg hsz, if_true, hc]
  cases h : match_single (cv.mtColor (roiSub b scr roi) tc) thr with
  | none => simp [h]
  | some r => obtain ⟨v, x, y⟩ := r; simp [h]

theorem fracOff_zero (len : ℕ) : fracOff len 0 = 0 := by
  unfold fracOff mulFloor clamp01
  norm_num

theorem fracOff_one (len : ℕ) : fracOff len 1 = len := by
  unfold fracOff mulFloor clamp01
  norm_num

/-- The full-frame region (0, 0, 1, 1) maps to the window rectangle. -/
theorem roi_abs_full (bb : BBox) :
    roi_abs bb { l := 0, t := 0, r := 1, b := 1 } =
      (bb.left, bb.top, bb.left + bb.width, bb.top + bb.height) := by
  simp [roi_abs, fracOff_zero, fracOff_one]

theorem pySlice_zero_length {π : Type} (l : List π) : pySlice l 0 l.length = l := by
  simp [pySlice]

/-- Slicing a well-sized screen with the full-frame region gives the
screen back. -/
theorem roiSub_full (b : Bot) (screen : ColorImg)
    (hh : screen.length = b.bbox.height)
    (hw : ∀ row ∈ screen, row.length = b.bbox.width) :
    roiSub b screen { l := 0, t := 0, r := 1, b := 1 } = screen := by
  unfold roiSub
  rw [roi_abs_full]
  simp only [sliceImg]
  have h1 : (b.bbox.top - b.bbox.top).toNat = 0 := by simp
  have h2 : (b.bbox.top + ↑b.bbox.height - b.bbox.top).toNat = b.bbox.height := by simp
  have h3 : (b.bbox.left - b.bbox.left).toNat = 0 := by simp
  have h4 : (b.bbox.left + ↑b.bbox.width - b.bbox.left).toNat = b.bbox.width := by simp
  rw [h1, h2, h3, h4]
  rw [show pySlice screen 0 b.bbox.height = screen by rw [← hh]; exact pySlice_zero_length screen]
  have : ∀ row ∈ screen, pySlice row 0 b.bbox.width = row := by
    intro row hr
    rw [← hw row hr]
    exact pySlice_zero_length row
  rw [List.map_congr_left this]
  exact List.map_id' screen

theorem imgSize_ne_zero (b : Bot) (screen : ColorImg)
    (hh : screen.length = b.bbox.height)
    (hw : ∀ row ∈ screen, row.length = b.bbox.width)
    (h0 : 0 < b.bbox.width) (h1 : 0 < b.bbox.height) :
    imgSize screen ≠ 0 := by
  cases screen with
  | nil => simp at hh; omega
  | cons r rest =>
      have hr : r.length = b.bbox.width := hw r (by simp)
      simp only [imgSize, List.map_cons, List.sum_cons]
      omega

/-! ## Claim theorems -/

/-- C1 (counterexample): with the provider answering `thr_main = 0.5` at
its first invocation and `0.9` at every later one, both of the first two
run-loop iterations still see `thr_main = 0.5`: the configuration change
does not take effect within one iteration, because `loop` reads the
provider once before the while loop, not at the top of every
iteration. -/
theorem C1_cex_change_not_in_effect_next_iteration :
    (loopModel envC1 (fun u : Unit => u)
        { params := update_runtime_params emptyProvider, calls := 0 } () 2).1.map
          Params.thr_main = [0.5, 0.5] ∧
      (update_runtime_params (envC1 1)).thr_main = 0.9 ∧ (0.5 : ℚ) ≠ 0.9 := by
  refine ⟨?_, ?_, by norm_num⟩ <;>
    simp [loopModel, loopIter, loopBody, readParams, update_runtime_params, envC1,
      emptyProvider]

/-- C1 (amended): the Run Parameters snapshot is read from the provider
exactly once, on entry to `loop` (besides the reads in `__init__` and
`start`); every run-loop iteration then uses that same snapshot, whatever
the state machine does, so provider-side changes made while the loop runs
never take effect. -/
theorem C1_loop_reads_params_once {σ : Type} (env : ℕ → Provider) (run1 : σ → σ)
    (ls0 : LoopSt) (s0 : σ) (n : ℕ) :
    (loopModel env run1 ls0 s0 n).1 =
        List.replicate n (update_runtime_params (env ls0.calls)) ∧
      (loopModel env run1 ls0 s0 n).2.1 =
        { params := update_runtime_params (env ls0.calls), calls := ls0.calls + 1 } := by
  have h := loopIter_params run1 n (readParams env ls0, s0)
  exact h

/-- C3 (counterexample): a supplied `event_priority` of `""`, `[]` or a
list of blank entries leaves the bot's event-priority list empty after
the parameter refresh — there is no fallback to the default ordering in
the string and list branches. -/
theorem C3_cex_empty_priority_not_replaced :
    (update_runtime_params
        { emptyProvider with event_priority := some (.str "") }).event_priority = [] ∧
      (update_runtime_params
        { emptyProvider with event_priority := some (.list []) }).event_priority = [] ∧
      (update_runtime_params
        { emptyProvider with event_priority := some (.list [" ", ""]) }).event_priority = [] := by
  decide

/-- C3 (amended): after a parameter refresh the event-priority list is
empty exactly when the provider supplied a string all of whose
comma-segments are blank or a list all of whose entries are blank; the
hard-coded default ordering (which is non-empty) is used only when the
`event_priority` key is absent or its value is neither a string nor a
list. -/
theorem C3_priority_empty_characterization (p : Provider) :
    ((update_runtime_params p).event_priority = [] ↔
        (∃ s, p.event_priority = some (.str s) ∧ ∀ x ∈ pySplitComma s, pyStrip x = "") ∨
        (∃ l, p.event_priority = some (.list l) ∧ ∀ x ∈ l, pyStrip x = "")) ∧
      (p.event_priority = none →
        (update_runtime_params p).event_priority = splitPriority default_priority) ∧
      (p.event_priority = some .other →
        (update_runtime_params p).event_priority = (pySplitComma default_priority).map pyStrip) ∧
      splitPriority default_priority ≠ [] ∧
      (pySplitComma default_priority).map pyStrip ≠ [] := by
  refine ⟨eventPriorityOf_eq_nil_iff p.event_priority, ?_, ?_, by decide, by decide⟩
  · intro h
    show eventPriorityOf p.event_priority = _
    rw [h]
    rfl
  · intro h
    show eventPriorityOf p.event_priority = _
    rw [h]
    rfl

/-- C7: for every state kind, `heartbeat` returns false when called at
the construction instant, returns true at any time strictly beyond the
kind's configured timeout after `_t0` — whatever the bookkeeping fields
`_last` and `_beat` hold, i.e. however many heartbeat or other calls
happened in between — and a heartbeat call itself only updates `_last`
and `_beat`, never the construction timestamp, kind or chain. -/
theorem C7_heartbeat_timeout (k : SKind) (aft : List SKind) (bc : SKind)
    (t0 last beat0 now : ℚ) (beat : ℕ)
    (h : now - t0 > timeoutSecs k) :
    (heartbeat (mkState k aft t0) t0).2 = false ∧
      (heartbeat
        { kind := k, after := aft, battleCls := bc, t0 := t0, last := last, beat := beat }
        now).2 = true ∧
      ∀ s : StateI, (heartbeat s beat0).1.t0 = s.t0 ∧ (heartbeat s beat0).1.kind = s.kind ∧
        (heartbeat s beat0).1.after = s.after := by
  refine ⟨?_, ?_, ?_⟩
  · cases k <;> simp [heartbeat, mkState, timeoutSecs]
  · simp only [heartbeat]
    exact decide_eq_true h
  · intro s
    simp only [heartbeat]
    split <;> simp

/-- C10: popping an empty continuation chain yields a fresh Route
Selection state; in particular a Shop or Support body that reaches its
timeout with an empty `after` chain returns a Route Selection state
rather than failing. -/
theorem C10_empty_chain_pops_route_selection (s : StateI) (now : ℚ)
    (h : s.after = []) :
    next_from_chain s now = mkState .routeSel [] now ∧
      ∀ (cv : CV) (b : Bot) (t0 : ℚ) (scr : ColorImg) (rest : List (ℚ × ColorImg)),
        ¬ (now - t0 < timeoutSecs s.kind) →
        skipRun cv b s t0 ((now, scr) :: rest) =
          ([], .next (mkState .routeSel [] now)) := by
  constructor
  · rw [next_from_chain, h]
  · intro cv b t0 scr rest hto
    rw [skipRun, if_neg hto, next_from_chain, h]

/-- C4: when the requested template is present, the matcher reports a
hit exactly when the best correlation score over the searched image
(full frame for `_match_gray` / `_match_color`, the clamped sub-image
for `_match_roi`) clears the threshold, in every color space; and the
score `minMaxLoc` reports is the maximum over every location of the
score matrix. -/
theorem C4_match_iff_best_score_clears_threshold (cv : CV) (b : Bot)
    (scr : ColorImg) (key : String) (thr : ℚ) (roi : Roi) (tg : GrayImg)
    (tc : ColorImg)
    (hg : b.tplGray.lookup key = some tg)
    (hc : b.tplColor.lookup key = some tc)
    (hsz : imgSize (roiSub b scr roi) ≠ 0) :
    ((match_gray cv b scr key thr).isSome = true ↔
        ∃ v p, mapMax (cv.mtGray (cv.toGray scr) tg) = some (v, p) ∧ thr ≤ v) ∧
      ((match_color cv b scr key thr).isSome = true ↔
        ∃ v p, mapMax (cv.mtColor scr tc) = some (v, p) ∧ thr ≤ v) ∧
      ((match_roi cv b scr key thr roi false).isSome = true ↔
        ∃ v p, mapMax (cv.mtGray (cv.toGray (roiSub b scr roi)) tg) = some (v, p) ∧ thr ≤ v) ∧
      ((match_roi cv b scr key thr roi true).isSome = true ↔
        ∃ v p, mapMax (cv.mtColor (roiSub b scr roi) tc) = some (v, p) ∧ thr ≤ v) ∧
      (∀ (m : ScoreMap) (v : ℚ) (x y : ℕ), mapMax m = some (v, x, y) →
        ∀ row ∈ m, ∀ a ∈ row, a ≤ v) := by
  refine ⟨?_, ?_, ?_, ?_, mapMax_le⟩
  · rw [match_gray_isSome cv b scr key thr tg hg]
    exact match_single_isSome_iff _ thr
  · rw [match_color_isSome cv b scr key thr tc hc]
    exact match_single_isSome_iff _ thr
  · rw [match_roi_isSome_gray cv b scr key thr roi tg hg hsz]
    exact match_single_isSome_iff _ thr
  · rw [match_roi_isSome_color cv b scr key thr roi tc hc hsz]
    exact match_single_isSome_iff _ thr

/-- C5: a template name absent from the requested color-space cache makes
every match operation return `none` (in both the full-frame and the
region-restricted form), and a region whose clamped sub-image has zero
area makes the region-restricted match return `none`; no case is an
error. -/
theorem C5_missing_template_or_degenerate_roi_is_none (cv : CV) (b : Bot)
    (scr : ColorImg) (key : String) (thr : ℚ) (roi : Roi) :
    (b.tplGray.lookup key = none →
        match_gray cv b scr key thr = none ∧
          match_roi cv b scr key thr roi false = none) ∧
      (b.tplColor.lookup key = none →
        match_color cv b scr key thr = none ∧
          match_roi cv b scr key thr roi true = none) ∧
      (∀ uc : Bool, imgSize (roiSub b scr roi) = 0 →
        match_roi cv b scr key thr roi uc = none) := by
  refine ⟨?_, ?_, ?_⟩
  · intro h
    constructor
    · unfold match_gray; rw [h]
    · unfold match_roi
      by_cases hsz : imgSize (roiSub b scr roi) = 0
      · simp [hsz]
      · simp [hsz, h]
  · intro h
    constructor
    · unfold match_color; rw [h]
    · unfold match_roi
      by_cases hsz : imgSize (roiSub b scr roi) = 0
      · simp [hsz]
      · simp [hsz, h]
  · intro uc hsz
    unfold match_roi
    simp [hsz]

/-- C6: on a screen whose dimensions match the window rectangle,
region-restricted matching with the full-frame region (0, 0, 1, 1)
returns exactly the result of unrestricted matching in the same color
space — identical score, rectangle and center — and in particular is
`none` exactly when the unrestricted match is. -/
theorem C6_full_frame_roi_equals_unrestricted (cv : CV) (b : Bot)
    (screen : ColorImg) (key : String) (thr : ℚ) (uc : Bool)
    (hh : screen.length = b.bbox.height)
    (hw : ∀ row ∈ screen, row.length = b.bbox.width)
    (h0 : 0 < b.bbox.width) (h1 : 0 < b.bbox.height) :
    match_roi cv b screen key thr { l := 0, t := 0, r := 1, b := 1 } uc =
      if uc then match_color cv b screen key thr
      else match_gray cv b screen key thr := by
  have hsub := roiSub_full b screen hh hw
  have hsz : imgSize (roiSub b screen { l := 0, t := 0, r := 1, b := 1 }) ≠ 0 := by
    rw [hsub]; exact imgSize_ne_zero b screen hh hw h0 h1
  unfold match_roi
  rw [roi_abs_full, hsub, if_neg (by rw [hsub] at hsz; exact hsz)]
  cases uc with
  | true =>
      simp only [if_true]
      unfold match_color
      cases hc : b.tplColor.lookup key with
      | none => simp [hc]
      | some tpl =>
          simp only [hc]
          cases hm : match_single (cv.mtColor screen tpl) thr with
          | none => simp [hm]
          | some r =>
              obtain ⟨v, x, y⟩ := r
              simp [hm]
  | false =>
      simp only [Bool.false_eq_true, if_false]
      unfold match_gray
      cases hg : b.tplGray.lookup key with
      | none => simp [hg]
      | some tpl =>
          simp only [hg]
          cases hm : match_single (cv.mtGray (cv.toGray screen) tpl) thr with
          | none => simp [hm]
          | some r =>
              obtain ⟨v, x, y⟩ := r
              simp [hm]

theorem pickLoop_first (cv : CV) (b : Bot) (scr : ColorImg) (roi : Roi) (thr : ℚ) :
    ∀ l : List String, (∃ n ∈ l, (try_match cv b scr n roi thr).isSome = true) →
      ∃ l1 name l2 r,
        l = l1 ++ name :: l2 ∧
        (∀ m ∈ l1, try_match cv b scr m roi thr = none) ∧
        try_match cv b scr name roi thr = some r ∧
        pickLoop cv b scr roi thr l = some (r.center, name) := by
  intro l
  induction l with
  | nil => rintro ⟨n, hn, -⟩; simp at hn
  | cons n rest ih =>
      intro hex
      cases h : try_match cv b scr n roi thr with
      | some r =>
          exact ⟨[], n, rest, r, rfl, by simp, h, by simp [pickLoop, h]⟩
      | none =>
          obtain ⟨n2, hn2, hm2⟩ := hex
          rcases List.mem_cons.mp hn2 with rfl | hn2r
          · rw [h] at hm2; simp at hm2
          · obtain ⟨l1, name, l2, r, hsplit, hnone, hsome, hpl⟩ := ih ⟨n2, hn2r, hm2⟩
            refine ⟨n :: l1, name, l2, r, by rw [hsplit]; rfl, ?_, hsome, ?_⟩
            · intro m hm
              rcases List.mem_cons.mp hm with rfl | hm2b
              · exact h
              · exact hnone m hm2b
            · simp [pickLoop, h, hpl]

/-- C2: on the route screen, when several event templates (here two,
possibly among others) each match within the pass-1 region at the main
threshold, `_pick` selects the one appearing earliest in
`event_priority` — every name before it in the list fails to match, its
own match is taken whatever its score relative to the others — and
`run` clicks that match's center and transitions to Route Confirmation
accordingly. -/
theorem C2_priority_first_match_wins (cv : CV) (b : Bot) (s : StateI) (now : ℚ)
    (scr : ColorImg) (n1 n2 : String)
    (hn1 : n1 ∈ b.event_priority) (hn2 : n2 ∈ b.event_priority) (hne : n1 ≠ n2)
    (hm1 : (try_match cv b scr n1 (roiPass1 b) b.thr_main).isSome = true)
    (hm2 : (try_match cv b scr n2 (roiPass1 b) b.thr_main).isSome = true)
    (hhb : (heartbeat s now).2 = false)
    (htitle : (match_gray cv b scr "title_route" (max 0.5 (b.thr_tag - 0.15))).isSome = true) :
    ∃ l1 name l2 r,
      b.event_priority = l1 ++ name :: l2 ∧
      (∀ m ∈ l1, try_match cv b scr m (roiPass1 b) b.thr_main = none) ∧
      try_match cv b scr name (roiPass1 b) b.thr_main = some r ∧
      pick cv b scr = some (r.center, name, roiPass1 b) ∧
      routeSelStep cv b s now scr =
        (some (mkRouteConfirm (if name = "event_boss" then .bossBattle else .battle) now),
         [r.center]) := by
  obtain ⟨l1, name, l2, r, hsplit, hnone, hsome, hpl⟩ :=
    pickLoop_first cv b scr (roiPass1 b) b.thr_main b.event_priority ⟨n1, hn1, hm1⟩
  have hpick : pick cv b scr = some (r.center, name, roiPass1 b) := by
    unfold pick
    rw [hpl]
  refine ⟨l1, name, l2, r, hsplit, hnone, hsome, hpick, ?_⟩
  obtain ⟨tr, ht⟩ := Option.isSome_iff_exists.mp htitle
  unfold routeSelStep
  rw [hhb]
  simp only [Bool.false_eq_true, if_false, ht, hpick]

/-- C8: a route pick of `event_boss` makes `Route_Selection_State.run`
return a Route Confirmation carrying the boss battle variant; a Route
Confirmation that finds its confirm button hands off to the carried
battle variant; a boss battle finding the proceed/next cue enters Relic
Selection carrying the continuation chain Shop then Support then Route
Selection; and the standard battle's chain is just Route Selection. -/
theorem C8_boss_pick_carries_boss_chain (cv : CV) (b : Bot) (s : StateI)
    (now : ℚ) (scr : ColorImg)
    (hhb : (heartbeat s now).2 = false)
    (htitle : (match_gray cv b scr "title_route" (max 0.5 (b.thr_tag - 0.15))).isSome = true)
    (hpick : (pick cv b scr).map (fun p => p.2.1) = some "event_boss") :
    (∃ c s2, routeSelStep cv b s now scr = (some s2, [c]) ∧
        s2.kind = .routeConfirm ∧ s2.battleCls = .bossBattle ∧ s2.after = []) ∧
      (∀ (s3 : StateI) (now3 : ℚ) (scr3 : ColorImg) (ok : MatchResult),
        s3.battleCls = .bossBattle → (heartbeat s3 now3).2 = false →
        (match_color cv b scr3 "btn_route_confirm" b.thr_main).orElse
            (fun _ => match_gray cv b scr3 "btn_route_confirm" b.thr_main) = some ok →
        routeConfirmStep cv b s3 now3 scr3 =
          (some (mkState .bossBattle [] now3), [ok.center])) ∧
      (∀ (s4 : StateI) (tE now4 : ℚ) (scr4 : ColorImg) (nxt : MatchResult),
        s4.kind = .bossBattle → (heartbeat s4 now4).2 = false →
        (match_roi cv b scr4 "btn_next" (b.thr_main - 0.10) roiNext false).orElse
            (fun _ => match_gray cv b scr4 "btn_next" (b.thr_main - 0.08)) = some nxt →
        battleStep cv b s4 tE now4 scr4 =
          (some (mkState .relicSel [.shop, .support, .routeSel] now4), [nxt.center])) ∧
      postChain .battle = [.routeSel] ∧ postChain .bossBattle = [.shop, .support, .routeSel] := by
  refine ⟨?_, ?_, ?_, rfl, rfl⟩
  · obtain ⟨p, hp⟩ : ∃ p, pick cv b scr = some p := by
      cases h : pick cv b scr with
      | none => rw [h] at hpick; simp at hpick
      | some p => exact ⟨p, rfl⟩
    obtain ⟨c, key, roi⟩ := p
    have hkey : key = "event_boss" := by
      rw [hp] at hpick; simpa using hpick
    subst hkey
    obtain ⟨tr, ht⟩ := Option.isSome_iff_exists.mp htitle
    refine ⟨c, mkRouteConfirm .bossBattle now, ?_, rfl, rfl, rfl⟩
    unfold routeSelStep
    rw [hhb]
    simp only [Bool.false_eq_true, if_false, ht, hp]
    rfl
  · intro s3 now3 scr3 ok hbc hhb3 hok
    unfold routeConfirmStep
    rw [hhb3]
    simp only [Bool.false_eq_true, if_false, hok, hbc]
  · intro s4 tE now4 scr4 nxt hk hhb4 hnxt
    unfold battleStep
    rw [hhb4]
    simp only [Bool.false_eq_true, if_false, hnxt, hk]
    rfl

/-- C9: while the leave/continue cue never matches, every iteration of
the Shop/Support body that enters the loop clicks the geometric center
of the bottom-right region, and as soon as a sampled time reaches the
state's timeout the body stops and unconditionally returns
`next_from_chain` — it never remains the current state beyond its
timeout (the heartbeat recovery branch cannot fire first when `run`
starts at the construction instant, since both checks use the same
timeout). -/
theorem C9_skip_state_blind_clicks_then_chain (cv : CV) (b : Bot) :
    ∀ (trace : List (ℚ × ColorImg)) (s : StateI) (t0 : ℚ),
      s.t0 = t0 →
      (∀ p ∈ trace, skipMatch cv b p.2 = none) →
      (∃ p ∈ trace, ¬ (p.1 - t0 < timeoutSecs s.kind)) →
      ∃ n now2,
        skipRun cv b s t0 trace =
          (List.replicate n (roiCenterPt b), .next (next_from_chain s now2)) := by
  intro trace
  induction trace with
  | nil =>
      rintro s t0 - - ⟨p, hp, -⟩
      simp at hp
  | cons it rest ih =>
      rintro s t0 ht0 hmiss ⟨p, hp, hpt⟩
      obtain ⟨now, scr⟩ := it
      by_cases hin : now - t0 < timeoutSecs s.kind
      · have hhb : (heartbeat s now).2 = false := by
          simp only [heartbeat, decide_eq_false_iff_not, not_lt]
          rw [ht0]
          linarith [hin]
        have hm : skipMatch cv b scr = none := hmiss (now, scr) (by simp)
        have hrest : ∃ p ∈ rest, ¬ (p.1 - t0 < timeoutSecs s.kind) := by
          rcases List.mem_cons.mp hp with rfl | hp2
          · exact absurd hin hpt
          · exact ⟨p, hp2, hpt⟩
        have hmiss2 : ∀ p ∈ rest, skipMatch cv b p.2 = none := by
          intro q hq; exact hmiss q (List.mem_cons_of_mem _ hq)
        have hpres : ((heartbeat s now).1.t0 = s.t0 ∧ (heartbeat s now).1.kind = s.kind) ∧
            (heartbeat s now).1.after = s.after := by
          simp only [heartbeat]
          split <;> simp
        obtain ⟨n, now2, hrec⟩ :=
          ih ((heartbeat s now).1) t0 (by rw [hpres.1.1, ht0])
            hmiss2 (by rw [hpres.1.2]; exact hrest)
        refine ⟨n + 1, now2, ?_⟩
        rw [skipRun, if_pos hin, hhb]
        simp only [Bool.false_eq_true, if_false, hm]
        rw [hrec]
        have hchain : next_from_chain ((heartbeat s now).1) now2 = next_from_chain s now2 := by
          unfold next_from_chain
          rw [hpres.2]
        rw [hchain]
        rfl
      · exact ⟨0, now, by rw [skipRun, if_neg hin]; rfl⟩

/-! ## Concrete evaluations in the witness world -/

theorem tryMatch_boss_eval :
    try_match cvW botW scrW "event_boss" (roiPass1 botW) botW.thr_main =
      some { key := "event_boss", maxv := 0.8, tl := (0, 0), br := (1, 1), center := (0, 0) } := by
  simp [try_match, match_roi, roiSub, roi_abs, fracOff, mulFloor, clamp01, sliceImg,
    pySlice, imgSize, botW, bboxW, scrW, cvW, roiPass1, leftRatio, match_single,
    mapMax, rowMax, tplBoss, tplRisky, tplTitle, tplConfirm, tplNext, imgH, imgW,
    Option.orElse, List.lookup]
  norm_num
  rw [if_neg (by decide)]

theorem tryMatch_risky_eval :
    try_match cvW botW scrW "event_risky" (roiPass1 botW) botW.thr_main =
      some { key := "event_risky", maxv := 0.95, tl := (0, 0), br := (1, 1), center := (0, 0) } := by
  simp [try_match, match_roi, roiSub, roi_abs, fracOff, mulFloor, clamp01, sliceImg,
    pySlice, imgSize, botW, bboxW, scrW, cvW, roiPass1, leftRatio, match_single,
    mapMax, rowMax, tplBoss, tplRisky, tplTitle, tplConfirm, tplNext, imgH, imgW,
    Option.orElse, List.lookup]
  norm_num
  rw [if_neg (by decide)]

theorem title_route_eval :
    match_gray cvW botW scrW "title_route" (max 0.5 (botW.thr_tag - 0.15)) =
      some { key := "title_route", maxv := 1, tl := (0, 0), br := (1, 1), center := (0, 0) } := by
  simp [match_gray, match_single, mapMax, rowMax, botW, bboxW, scrW, cvW,
    tplBoss, tplRisky, tplTitle, tplConfirm, tplNext, imgH, imgW, List.lookup]
  norm_num

theorem pick_eval : pick cvW botW scrW = some ((0, 0), "event_boss", roiPass1 botW) := by
  have h : botW.event_priority = ["event_boss", "event_risky"] := rfl
  unfold pick
  rw [h, pickLoop, tryMatch_boss_eval]

theorem skipMatch_eval : skipMatch cvW botW scrW = none := by
  simp [skipMatch, match_roi, roiSub, roi_abs, fracOff, mulFloor, clamp01, sliceImg,
    pySlice, imgSize, botW, bboxW, scrW, cvW, roiSkipBtn, Option.orElse, List.lookup]
  norm_num

theorem hb_routeSel_eval : (heartbeat (mkState .routeSel [] 0) 0).2 = false := by
  simp [heartbeat, mkState, timeoutSecs]

theorem roiSub_pass1_eval :
    roiSub botW scrW (roiPass1 botW) =
      List.replicate 3 (List.replicate 2 ((0, 0, 0) : Pixel)) := by
  simp [roiSub, roi_abs, fracOff, mulFloor, clamp01, sliceImg, pySlice,
    botW, bboxW, scrW, roiPass1, leftRatio]
  norm_num
  decide

theorem imgSize_pass1_eval : imgSize (roiSub botW scrW (roiPass1 botW)) ≠ 0 := by
  rw [roiSub_pass1_eval]
  decide

/-! ## Witnesses -/

theorem C2_witness :
    (try_match cvW botW scrW "event_boss" (roiPass1 botW) botW.thr_main).isSome = true ∧
      (try_match cvW botW scrW "event_risky" (roiPass1 botW) botW.thr_main).isSome = true ∧
      (∃ r1 r2,
        try_match cvW botW scrW "event_boss" (roiPass1 botW) botW.thr_main = some r1 ∧
          try_match cvW botW scrW "event_risky" (roiPass1 botW) botW.thr_main = some r2 ∧
          r1.maxv < r2.maxv) ∧
      ∃ l1 name l2 r,
        botW.event_priority = l1 ++ name :: l2 ∧
          (∀ m ∈ l1, try_match cvW botW scrW m (roiPass1 botW) botW.thr_main = none) ∧
          try_match cvW botW scrW name (roiPass1 botW) botW.thr_main = some r ∧
          pick cvW botW scrW = some (r.center, name, roiPass1 botW) ∧
          routeSelStep cvW botW (mkState .routeSel [] 0) 0 scrW =
            (some (mkRouteConfirm (if name = "event_boss" then SKind.bossBattle else SKind.battle) 0),
             [r.center]) := by
  refine ⟨by rw [tryMatch_boss_eval]; rfl, by rw [tryMatch_risky_eval]; rfl,
    ⟨_, _, tryMatch_boss_eval, tryMatch_risky_eval, by norm_num⟩, ?_⟩
  exact C2_priority_first_match_wins cvW botW (mkState .routeSel [] 0) 0 scrW
    "event_boss" "event_risky" (by decide) (by decide) (by decide)
    (by rw [tryMatch_boss_eval]; rfl) (by rw [tryMatch_risky_eval]; rfl)
    hb_routeSel_eval (by rw [title_route_eval]; rfl)

theorem C4_witness :
    botW.tplGray.lookup "event_boss" = some tplBoss ∧
      botW.tplColor.lookup "event_boss" = some [[(1, 1, 1)]] ∧
      imgSize (roiSub botW scrW (roiPass1 botW)) ≠ 0 ∧
      ((match_gray cvW botW scrW "event_boss" 0.76).isSome = true ↔
        ∃ v p, mapMax (cvW.mtGray (cvW.toGray scrW) tplBoss) = some (v, p) ∧ 0.76 ≤ v) := by
  refine ⟨by decide, by decide, imgSize_pass1_eval, ?_⟩
  exact (C4_match_iff_best_score_clears_threshold cvW botW scrW "event_boss" 0.76
    (roiPass1 botW) tplBoss [[(1, 1, 1)]] (by decide) (by decide) imgSize_pass1_eval).1

theorem C6_witness :
    scrW.length = botW.bbox.height ∧ (∀ row ∈ scrW, row.length = botW.bbox.width) ∧
      0 < botW.bbox.width ∧ 0 < botW.bbox.height ∧
      match_roi cvW botW scrW "event_boss" 0.76 { l := 0, t := 0, r := 1, b := 1 } false =
        if false then match_color cvW botW scrW "event_boss" 0.76
        else match_gray cvW botW scrW "event_boss" 0.76 := by
  refine ⟨by decide, by decide, by decide, by decide, ?_⟩
  exact C6_full_frame_roi_equals_unrestricted cvW botW scrW "event_boss" 0.76 false
    (by decide) (by decide) (by decide) (by decide)

theorem C7_witness :
    (11 : ℚ) - 0 > timeoutSecs .shop ∧
      (heartbeat (mkState .shop [] 0) 0).2 = false ∧
      (heartbeat
        { kind := .shop, after := [], battleCls := .battle, t0 := 0, last := 0, beat := 3 }
        11).2 = true := by
  have h := C7_heartbeat_timeout .shop [] .battle 0 0 5 11 3 (by norm_num [timeoutSecs])
  exact ⟨by norm_num [timeoutSecs], h.1, h.2.1⟩

theorem C8_witness :
    (pick cvW botW scrW).map (fun p => p.2.1) = some "event_boss" ∧
      (∃ c s2, routeSelStep cvW botW (mkState .routeSel [] 0) 0 scrW = (some s2, [c]) ∧
        s2.kind = .routeConfirm ∧ s2.battleCls = .bossBattle ∧ s2.after = []) ∧
      postChain .battle = [.routeSel] ∧
      postChain .bossBattle = [.shop, .support, .routeSel] := by
  have hpick : (pick cvW botW scrW).map (fun p => p.2.1) = some "event_boss" := by
    rw [pick_eval]; rfl
  have h := C8_boss_pick_carries_boss_chain cvW botW (mkState .routeSel [] 0) 0 scrW
    hb_routeSel_eval (by rw [title_route_eval]; rfl) hpick
  exact ⟨hpick, h.1, h.2.2.2.1, h.2.2.2.2⟩

theorem C9_witness :
    (mkState .shop [.support] 0).t0 = 0 ∧
      (∀ p ∈ [((0 : ℚ), scrW), (11, scrW)], skipMatch cvW botW p.2 = none) ∧
      (∃ p ∈ [((0 : ℚ), scrW), (11, scrW)],
        ¬ (p.1 - 0 < timeoutSecs (mkState .shop [.support] 0).kind)) ∧
      ∃ n now2,
        skipRun cvW botW (mkState .shop [.support] 0) 0 [((0 : ℚ), scrW), (11, scrW)] =
          (List.replicate n (roiCenterPt botW),
           .next (next_from_chain (mkState .shop [.support] 0) now2)) := by
  have hmiss : ∀ p ∈ [((0 : ℚ), scrW), (11, scrW)], skipMatch cvW botW p.2 = none := by
    intro p hp
    rcases List.mem_cons.mp hp with rfl | hp2
    · exact skipMatch_eval
    · rcases List.mem_cons.mp hp2 with rfl | hp3
      · exact skipMatch_eval
      · simp at hp3
  have hend : ∃ p ∈ [((0 : ℚ), scrW), (11, scrW)],
      ¬ (p.1 - 0 < timeoutSecs (mkState .shop [.support] 0).kind) := by
    refine ⟨(11, scrW), by simp, ?_⟩
    show ¬ ((11 : ℚ) - 0 < timeoutSecs .shop)
    norm_num [timeoutSecs]
  exact ⟨rfl, hmiss, hend,
    C9_skip_state_blind_clicks_then_chain cvW botW [((0 : ℚ), scrW), (11, scrW)]
      (mkState .shop [.support] 0) 0 rfl hmiss hend⟩

theorem C10_witness :
    (mkState .shop [] 0).after = [] ∧
      next_from_chain (mkState .shop [] 0) 11 = mkState .routeSel [] 11 :=
  ⟨rfl, (C10_empty_chain_pops_route_selection (mkState .shop [] 0) 11 rfl).1⟩

end MazeRunner
